import Mathlib

/-!
Verification of the gemini-proxy request-dispatch engine.

Strings are embedded as `List Char` (JavaScript string operations are
modelled by structural recursion so that every definition is executable).
External collaborators are parameters: the upstream HTTP call of one retry
attempt is a function `String → UpstreamResult α`, and `JSON.parse` is a
function `List Char → Option α` (`none` models a parse exception).

Sources embedded here:
- `src/service/key/keyManager.ts` (`KeyManager`)
- `src/service/chat/geminiChatService.ts` (`generateContent` retry loop,
  `streamGenerateContent` line-framed relay, `sanitizeKey`)
- `src/router/geminiRoutes.ts` (`parseModelRequest`)
-/

namespace GeminiProxy

/-- JavaScript `s.split(sep)` for a one-character separator: always returns a
non-empty list; a trailing separator yields a trailing empty fragment. -/
def splitOnChar (sep : Char) : List Char → List (List Char)
  | [] => [[]]
  | c :: rest =>
    let r := splitOnChar sep rest
    if c = sep then [] :: r
    else
      match r with
      | [] => [[c]]
      | h :: t => (c :: h) :: t

/-- JavaScript `s.trim()`: strip whitespace from both ends. -/
def trimChars (s : List Char) : List Char :=
  ((s.dropWhile Char.isWhitespace).reverse.dropWhile Char.isWhitespace).reverse

/-! ### Credential pool — `KeyManager` (keyManager.ts) -/

/-- State of `KeyManager`: the credential list, the round-robin cursor and the
failed set (a JS `Set`, modelled as a duplicate-free insertion-ordered list). -/
structure KeyManager where
  apiKeys : List String
  currentKeyIndex : Nat
  failedKeys : List String
deriving DecidableEq, Repr

/-- The available subset: `apiKeys.filter(key => !failedKeys.has(key))`. -/
def availableKeys (km : KeyManager) : List String :=
  km.apiKeys.filter (fun k => !(km.failedKeys.contains k))

/-- `KeyManager.getNextKey()`: pick `available[cursor % available.length]` and
increment the cursor, or return `undefined` (here `none`) when no key is
available (the cursor is not incremented in that case). -/
def getNextKey (km : KeyManager) : Option String × KeyManager :=
  let avail := availableKeys km
  if avail.isEmpty then (none, km)
  else (avail.get? (km.currentKeyIndex % avail.length),
        { km with currentKeyIndex := km.currentKeyIndex + 1 })

/-- `KeyManager.markKeyAsFailed(key)`: `failedKeys.add(key)` — idempotent. -/
def markKeyAsFailed (km : KeyManager) (key : String) : KeyManager :=
  if km.failedKeys.contains key then km
  else { km with failedKeys := km.failedKeys ++ [key] }

/-! ### Credential redaction (geminiChatService.ts / keyManager.ts) -/

/-- `sanitizeKey(key)`: keys of length ≤ 8 are returned verbatim; longer keys
become `substring(0,4) + "..." + substring(len-4)`. -/
def sanitizeKey (key : List Char) : List Char :=
  if key.length ≤ 8 then key
  else key.take 4 ++ "...".data ++ key.drop (key.length - 4)

/-! ### Retry/failover orchestrator — `generateContent` (geminiChatService.ts) -/

/-- Result of one upstream call attempt: success, or a thrown error carrying
`err.response?.status` (`none` when the error has no HTTP response, e.g. the
internally thrown `AppError` or a network error) and `err.message`. -/
inductive UpstreamResult (α : Type) where
  | success : α → UpstreamResult α
  | failure : Option Nat → String → UpstreamResult α
deriving DecidableEq

/-- Classification used by the retry loop's "don't retry on certain errors"
check: a failure whose status is neither 400 nor 401. -/
def isRetryableFailure {α : Type} : UpstreamResult α → Bool
  | .success _ => false
  | .failure s _ => !(s == some 400 || s == some 401)

/-- Final outcome of the operation: the returned response, or the
`ExternalServiceError` message thrown after the loop. -/
inductive Outcome (α : Type) where
  | success : α → Outcome α
  | terminalError : String → Outcome α
deriving DecidableEq

/-- One `databaseService.createErrorLog` record (the fields the spec's
invariant mentions). -/
structure ErrorRecord where
  geminiKey : List Char
  errorType : String
  errorCode : Nat
deriving DecidableEq, Repr

/-- One `databaseService.createRequestLog` record. -/
structure RequestRecord where
  geminiKey : List Char
deriving DecidableEq, Repr

/-- Observable result of running the retry loop: the outcome, the number of
loop iterations performed, the final pool state, the message of every caught
error in order, and the emitted log records. -/
structure RunResult (α : Type) where
  outcome : Outcome α
  attempts : Nat
  km : KeyManager
  failMsgs : List String
  errorLogs : List ErrorRecord
  requestLogs : List RequestRecord
deriving DecidableEq

/-- The `AppError` message thrown when `getNextKey()` yields no key. -/
def noKeysMsg : String := "No available API keys in GeminiChatService generateContent()"

/-- The fallback `ExternalServiceError` message used when no error was caught. -/
def defaultFailMsg : String := "Failed to generate content after all retries"

/-- `err.response?.status?.toString() ?? 'unknown'`. -/
def statusType (s : Option Nat) : String :=
  match s with
  | some n => toString n
  | none => "unknown"

/-- The body of `generateContent`'s `for (attempt = 0; attempt < MAX_RETRIES;
attempt++)` loop, with `fuel` the remaining iterations.  Each iteration draws a
key (`none` ⇒ an `AppError` with no `response` is thrown and caught: nothing is
marked or logged and, its status being `undefined`, the loop continues), calls
upstream, and on failure marks the key failed, records one error log, and
breaks when the status is 400 or 401.  After the loop the last caught message
is rethrown as an `ExternalServiceError`. -/
def runAttempts {α : Type} (upstream : String → UpstreamResult α) :
    Nat → KeyManager → Nat → List String → List ErrorRecord → RunResult α
  | 0, km, attempts, msgs, logs =>
    ⟨.terminalError ((msgs.getLast?).getD defaultFailMsg), attempts, km, msgs, logs, []⟩
  | fuel + 1, km, attempts, msgs, logs =>
    match getNextKey km with
    | (none, km1) =>
      runAttempts upstream fuel km1 (attempts + 1) (msgs ++ [noKeysMsg]) logs
    | (some key, km1) =>
      match upstream key with
      | .success resp =>
        ⟨.success resp, attempts + 1, km1, msgs, logs, [⟨sanitizeKey key.data⟩]⟩
      | .failure status msg =>
        let km2 := markKeyAsFailed km1 key
        let logs2 := logs ++ [⟨sanitizeKey key.data, statusType status, status.getD 0⟩]
        if status = some 400 ∨ status = some 401 then
          ⟨.terminalError msg, attempts + 1, km2, msgs ++ [msg], logs2, []⟩
        else
          runAttempts upstream fuel km2 (attempts + 1) (msgs ++ [msg]) logs2

/-- `GeminiChatService.generateContent` as a function of the upstream call, the
initial pool state and the configured `MAX_RETRIES`. -/
def generateContent {α : Type} (upstream : String → UpstreamResult α)
    (km : KeyManager) (maxRetries : Nat) : RunResult α :=
  runAttempts upstream maxRetries km 0 [] []

/-! ### Streaming relay — `streamGenerateContent` (geminiChatService.ts) -/

/-- Per-line step of the relay: if `line.trim()` starts with `'data: '`, strip
the marker and `JSON.parse` the remainder (`none` = parse exception, the line
is dropped); other lines are skipped. -/
def processLine {α : Type} (parse : List Char → Option α) (line : List Char) :
    Option α :=
  if "data: ".data.isPrefixOf (trimChars line) then
    parse ((trimChars line).drop 6)
  else none

/-- Per-chunk step: append the chunk to the buffer, split on `'\n'`, keep the
last (possibly incomplete) fragment as the new buffer, and process every
complete line in order. -/
def processChunk {α : Type} (parse : List Char → Option α)
    (buffer chunk : List Char) : List Char × List α :=
  (((splitOnChar '\n' (buffer ++ chunk)).getLast?).getD [],
   (splitOnChar '\n' (buffer ++ chunk)).dropLast.filterMap (processLine parse))

/-- Fold step threading the buffer and accumulating yielded frames. -/
def relayStep {α : Type} (parse : List Char → Option α)
    (acc : List Char × List α) (chunk : List Char) : List Char × List α :=
  let p := processChunk parse acc.1 chunk
  (p.1, acc.2 ++ p.2)

/-- The "process any remaining data in buffer" epilogue after the upstream
stream ends: a non-blank buffer is trimmed and handled like one line. -/
def processRemainder {α : Type} (parse : List Char → Option α)
    (buffer : List Char) : List α :=
  if trimChars buffer = [] then []
  else
    match processLine parse buffer with
    | some a => [a]
    | none => []

/-- The full relay of one streaming session: the ordered frames yielded for a
given arrival-ordered list of byte chunks. -/
def relayChunks {α : Type} (parse : List Char → Option α)
    (chunks : List (List Char)) : List α :=
  let fin := chunks.foldl (relayStep parse) ([], [])
  fin.2 ++ processRemainder parse fin.1

/-- The `data:`-payload extraction of `processLine`, independent of the JSON
decoder (used to factor relay proofs). -/
def extractData (line : List Char) : Option (List Char) :=
  if "data: ".data.isPrefixOf (trimChars line) then
    some ((trimChars line).drop 6)
  else none

/-- `processChunk` at the payload level. -/
def chunkData (buffer chunk : List Char) : List Char × List (List Char) :=
  (((splitOnChar '\n' (buffer ++ chunk)).getLast?).getD [],
   (splitOnChar '\n' (buffer ++ chunk)).dropLast.filterMap extractData)

/-- `relayStep` at the payload level. -/
def dataStep (acc : List Char × List (List Char)) (chunk : List Char) :
    List Char × List (List Char) :=
  let p := chunkData acc.1 chunk
  (p.1, acc.2 ++ p.2)

/-- `processRemainder` at the payload level. -/
def remainderData (buffer : List Char) : Option (List Char) :=
  if trimChars buffer = [] then none else extractData buffer

/-- All `data:` payload strings surfaced to `JSON.parse` by one session. -/
def relayDataStrings (chunks : List (List Char)) : List (List Char) :=
  let fin := chunks.foldl dataStep ([], [])
  fin.2 ++ (remainderData fin.1).toList

/-! ### Unified endpoint parsing — `parseModelRequest` (geminiRoutes.ts) -/

/-- The `validOperations` list of `parseModelRequest`. -/
def validOperations : List (List Char) :=
  ["generateContent".data, "streamGenerateContent".data,
   "embedContent".data, "countTokens".data]

/-- `parseModelRequest(params)`: split `<modelId>:<operation>` on the first
colon; errors (thrown `AppError`s with status 400) when there is no colon, the
model id is empty or whitespace-only, or the operation is not in
`validOperations`. -/
def parseModelRequest (params : List Char) :
    Except (List Char) (List Char × List Char) :=
  if ':' ∈ params then
    let modelId := params.takeWhile (fun c => c ≠ ':')
    let operation := (params.dropWhile (fun c => c ≠ ':')).drop 1
    if modelId = [] ∨ trimChars modelId = [] then
      .error "Model ID cannot be empty".data
    else if validOperations.contains operation then
      .ok (modelId, operation)
    else
      .error ("Unsupported operation: ".data ++ operation)
  else
    .error "Invalid request format. Expected format: modelId:operation".data

/-! ### Concrete fixtures used by witnesses and counterexamples -/

/-- A concrete decoder agreeing with `JSON.parse` on the payloads used in the
streaming scenarios: the two object payloads decode, `[DONE]` and `not-json`
are parse failures. -/
def demoParse : List Char → Option (List Char) := fun s =>
  if s = "\x7b\"a\":1\x7d".data then some s
  else if s = "\x7b\"b\":2\x7d".data then some s
  else none

/-- A pool whose single key is already failed: no key is available. -/
def exhaustedKM : KeyManager := ⟨["k1"], 0, ["k1"]⟩

/-- A fresh two-key pool. -/
def twoKeyKM : KeyManager := ⟨["alpha-key", "beta-key"], 0, []⟩

/-- A fresh three-key pool. -/
def threeKeyKM : KeyManager := ⟨["k-a", "k-b", "k-c"], 0, []⟩

/-- An upstream that always fails with a retryable server error. -/
def alwaysServerError : String → UpstreamResult Unit :=
  fun _ => .failure (some 500) "boom"

/-- An upstream that always rejects with 401 Unauthorized. -/
def alwaysUnauthorized : String → UpstreamResult Unit :=
  fun _ => .failure (some 401) "denied"

/-- An upstream that always rejects with 400 Bad Request. -/
def alwaysBadRequest : String → UpstreamResult Unit :=
  fun _ => .failure (some 400) "malformed"

/-! ## Theorems -/

/-- C7: `getNextKey` never returns a credential in the failed set, and when
every pooled credential is marked failed it returns `none`. -/
theorem getNextKey_never_failed (km : KeyManager) :
    (∀ key, (getNextKey km).1 = some key → key ∉ km.failedKeys) ∧
    ((∀ k ∈ km.apiKeys, k ∈ km.failedKeys) → (getNextKey km).1 = none) := by
  constructor
  · intro key h
    by_cases he : (availableKeys km).isEmpty
    · simp [getNextKey, he] at h
    · simp only [getNextKey, he, if_false, Bool.false_eq_true] at h
      have hmem : key ∈ availableKeys km := List.get?_mem h
      have := (List.mem_filter.mp hmem).2
      simpa using this
  · intro hall
    have hnil : availableKeys km = [] := by
      apply List.filter_eq_nil_iff.mpr
      intro k hk
      simp [hall k hk]
    simp [getNextKey, hnil]

theorem getNextKey_never_failed_witness :
    (getNextKey ⟨["k1", "k2"], 0, ["k1", "k2"]⟩).1 = none :=
  (getNextKey_never_failed ⟨["k1", "k2"], 0, ["k1", "k2"]⟩).2 (by decide)

/-- C10 counterexample: an 8-character credential is recorded verbatim by
`sanitizeKey` — the full secret appears, and the fragment is not the
first4…last4 redaction the claim promises for every length. -/
theorem sanitizeKey_short_verbatim :
    sanitizeKey "secret12".data = "secret12".data ∧
    sanitizeKey "secret12".data ≠ "secr".data ++ "...".data ++ "et12".data := by
  constructor
  · decide
  · decide

/-- C10 amended: credentials longer than 8 characters are redacted to the
first 4 and last 4 characters joined by `"..."` (an 11-character fragment that
differs from the secret whenever the secret's length is not 11), while
credentials of length ≤ 8 are recorded in full. -/
theorem sanitizeKey_spec (key : List Char) :
    (key.length ≤ 8 → sanitizeKey key = key) ∧
    (8 < key.length →
      sanitizeKey key = key.take 4 ++ "...".data ++ key.drop (key.length - 4) ∧
      (sanitizeKey key).length = 11 ∧
      (key.length ≠ 11 → sanitizeKey key ≠ key)) := by
  have hdots : ("...".data).length = 3 := rfl
  constructor
  · intro h
    simp [sanitizeKey, h]
  · intro h
    have hif : ¬ key.length ≤ 8 := by omega
    have hform : sanitizeKey key =
        key.take 4 ++ "...".data ++ key.drop (key.length - 4) := by
      simp [sanitizeKey, hif]
    have hlen : (sanitizeKey key).length = 11 := by
      rw [hform]
      simp only [List.length_append, List.length_take, List.length_drop, hdots]
      omega
    refine ⟨hform, hlen, ?_⟩
    intro hne hcontra
    have := congrArg List.length hcontra
    rw [hlen] at this
    omega

theorem sanitizeKey_spec_witness :
    sanitizeKey "secret-secret".data ≠ "secret-secret".data :=
  ((sanitizeKey_spec "secret-secret".data).2 (by decide)).2.2 (by decide)

/-- C4 counterexample: `batchEmbedContents` is not in `validOperations`, so the
unified endpoint parser rejects it with a client error, contradicting the
claim that it is an accepted operation. -/
theorem parseModelRequest_rejects_batchEmbed :
    parseModelRequest "gemini-pro:batchEmbedContents".data =
      .error ("Unsupported operation: ".data ++ "batchEmbedContents".data) ∧
    (parseModelRequest "gemini-pro:batchEmbedContents".data).isOk = false := by
  constructor
  · rfl
  · decide

/-- C4 amended: splitting `<modelId>:<operation>` on the first colon succeeds
exactly when a colon is present, the model id is not empty or whitespace-only,
and the operation is one of generateContent, streamGenerateContent,
embedContent, countTokens (`batchEmbedContents` is not accepted); on success
the returned pieces reassemble the input around its first colon. -/
theorem parseModelRequest_spec (params : List Char) :
    ((parseModelRequest params).isOk = true ↔
      (':' ∈ params ∧
        trimChars (params.takeWhile (fun c => c ≠ ':')) ≠ [] ∧
        (params.dropWhile (fun c => c ≠ ':')).drop 1 ∈ validOperations)) ∧
    (∀ m op, parseModelRequest params = .ok (m, op) →
      params = m ++ ':' :: op ∧ (∀ c ∈ m, c ≠ ':') ∧
      op ∈ validOperations ∧ trimChars m ≠ []) := by
  by_cases hc : ':' ∈ params
  · have hdrop : params.dropWhile (fun c => c ≠ ':') ≠ [] := by
      intro hnil
      have := List.dropWhile_eq_nil_iff.mp hnil ':' hc
      simp at this
    have hhead : (params.dropWhile (fun c => c ≠ ':')).head hdrop = ':' := by
      have := List.head_dropWhile_not (fun c => decide (c ≠ ':')) params hdrop
      simpa using this
    have hsplit : params =
        params.takeWhile (fun c => c ≠ ':') ++
          ':' :: (params.dropWhile (fun c => c ≠ ':')).drop 1 := by
      conv_lhs => rw [← List.takeWhile_append_dropWhile
        (p := fun c => decide (c ≠ ':')) (l := params)]
      congr 1
      have hct := List.head_cons_tail (params.dropWhile (fun c => c ≠ ':')) hdrop
      rw [hhead] at hct
      rw [List.drop_one]
      exact hct.symm
    by_cases hm : params.takeWhile (fun c => c ≠ ':') = [] ∨
        trimChars (params.takeWhile (fun c => c ≠ ':')) = []
    · have htrim : trimChars (params.takeWhile (fun c => c ≠ ':')) = [] := by
        rcases hm with hm | hm
        · rw [hm]; rfl
        · exact hm
      have hval : parseModelRequest params = .error "Model ID cannot be empty".data := by
        simp only [parseModelRequest]
        rw [if_pos hc, if_pos hm]
      constructor
      · rw [hval]
        constructor
        · intro h
          exact absurd h (by decide)
        · rintro ⟨_, htrim2, _⟩
          exact absurd htrim htrim2
      · intro m op hok
        rw [hval] at hok
        exact Except.noConfusion hok
    · by_cases hv : validOperations.contains
          ((params.dropWhile (fun c => c ≠ ':')).drop 1) = true
      · have hval : parseModelRequest params =
            .ok (params.takeWhile (fun c => c ≠ ':'),
                 (params.dropWhile (fun c => c ≠ ':')).drop 1) := by
          simp only [parseModelRequest]
          rw [if_pos hc, if_neg hm, if_pos hv]
        constructor
        · rw [hval]
          constructor
          · intro _
            refine ⟨hc, ?_, by simpa using hv⟩
            intro htrim
            exact hm (Or.inr htrim)
          · intro _
            rfl
        · intro m op hok
          rw [hval] at hok
          have hpair : (params.takeWhile (fun c => c ≠ ':'),
              (params.dropWhile (fun c => c ≠ ':')).drop 1) = (m, op) :=
            Except.ok.inj hok
          have hMeq : m = params.takeWhile (fun c => c ≠ ':') :=
            (congrArg Prod.fst hpair).symm
          have hOeq : op = (params.dropWhile (fun c => c ≠ ':')).drop 1 :=
            (congrArg Prod.snd hpair).symm
          subst hMeq; subst hOeq
          refine ⟨hsplit, ?_, by simpa using hv, ?_⟩
          · intro c hcm
            have := List.mem_takeWhile_imp hcm
            simpa using this
          · intro htrim
            exact hm (Or.inr htrim)
      · have hval : parseModelRequest params =
            .error ("Unsupported operation: ".data ++
              (params.dropWhile (fun c => c ≠ ':')).drop 1) := by
          simp only [parseModelRequest]
          rw [if_pos hc, if_neg hm, if_neg hv]
        constructor
        · rw [hval]
          constructor
          · intro h
            simp [Except.isOk, Except.toBool] at h
          · rintro ⟨_, _, hvmem⟩
            exact absurd (by simpa using hvmem) hv
        · intro m op hok
          rw [hval] at hok
          exact Except.noConfusion hok
  · have hval : parseModelRequest params =
        .error "Invalid request format. Expected format: modelId:operation".data := by
      simp only [parseModelRequest]
      rw [if_neg hc]
    constructor
    · rw [hval]
      constructor
      · intro h
        exact absurd h (by decide)
      · rintro ⟨hcm, _, _⟩
        exact absurd hcm hc
    · intro m op hok
      rw [hval] at hok
      exact Except.noConfusion hok

theorem parseModelRequest_spec_witness :
    (parseModelRequest "gemini-pro:countTokens".data).isOk = true :=
  (parseModelRequest_spec "gemini-pro:countTokens".data).1.mpr (by decide)

/-- Helper: the last element of a positive-length replicate. -/
theorem getLast?_replicate_pos (x : String) :
    ∀ n, 0 < n → (List.replicate n x).getLast? = some x := by
  intro n
  induction n with
  | zero => intro h; omega
  | succ m ih =>
    intro _
    cases m with
    | zero => rfl
    | succ k =>
      rw [List.replicate_succ, List.replicate_succ, List.getLast?_cons_cons,
        ← List.replicate_succ]
      exact ih (by omega)

/-- Helper: with no key available, every loop iteration throws the pool-empty
`AppError`, marks nothing, logs nothing, and continues. -/
theorem runAttempts_no_keys {α : Type} (upstream : String → UpstreamResult α)
    (km : KeyManager) (hempty : availableKeys km = []) :
    ∀ fuel attempts msgs logs,
      runAttempts upstream fuel km attempts msgs logs =
        ⟨.terminalError
           (((msgs ++ List.replicate fuel noKeysMsg).getLast?).getD defaultFailMsg),
         attempts + fuel, km, msgs ++ List.replicate fuel noKeysMsg, logs, []⟩ := by
  intro fuel
  induction fuel with
  | zero =>
    intro a msgs logs
    simp [runAttempts]
  | succ n ih =>
    intro a msgs logs
    have hnext : getNextKey km = (none, km) := by
      simp [getNextKey, hempty]
    simp only [runAttempts, hnext]
    rw [ih (a + 1) (msgs ++ [noKeysMsg]) logs]
    simp only [List.replicate_succ, List.append_assoc, List.singleton_append,
      RunResult.mk.injEq, and_true, true_and]
    omega

/-- C2 amended: when the pool yields no credential, the orchestrator does not
stop after one attempt — it re-attempts acquisition on every one of the R
loop iterations (marking no credential and emitting no error-log record), and
only then surfaces a terminal error carrying the fixed no-available-keys
message, which is distinguishable from an upstream rejection. -/
theorem capacity_exhausted_retries {α : Type} (upstream : String → UpstreamResult α)
    (km : KeyManager) (R : Nat) (hpos : 0 < R)
    (hempty : availableKeys km = []) :
    (generateContent upstream km R).attempts = R ∧
    (generateContent upstream km R).outcome = .terminalError noKeysMsg ∧
    (generateContent upstream km R).errorLogs = [] ∧
    (generateContent upstream km R).km = km := by
  unfold generateContent
  rw [runAttempts_no_keys upstream km hempty R 0 [] []]
  refine ⟨by simp, ?_, rfl, rfl⟩
  simp [getLast?_replicate_pos noKeysMsg R hpos]

theorem capacity_exhausted_retries_witness :
    (generateContent alwaysServerError exhaustedKM 2).attempts = 2 ∧
    (generateContent alwaysServerError exhaustedKM 2).outcome =
      .terminalError noKeysMsg ∧
    (generateContent alwaysServerError exhaustedKM 2).errorLogs = [] ∧
    (generateContent alwaysServerError exhaustedKM 2).km = exhaustedKM :=
  capacity_exhausted_retries alwaysServerError exhaustedKM 2 (by decide) (by decide)

/-- C2 counterexample: with the single key already failed and MAX_RETRIES = 3,
the orchestrator performs 3 attempts, not 1 — the no-credential condition is
not an immediate terminal failure. -/
theorem capacity_not_immediate :
    (generateContent alwaysServerError exhaustedKM 3).attempts = 3 ∧
    ¬ (generateContent alwaysServerError exhaustedKM 3).attempts = 1 ∧
    (generateContent alwaysServerError exhaustedKM 3).outcome =
      .terminalError noKeysMsg := by
  refine ⟨by decide, by decide, by decide⟩

/-- Helper: the key just marked is in the failed set. -/
theorem mem_markKeyAsFailed (km : KeyManager) (key : String) :
    key ∈ (markKeyAsFailed km key).failedKeys := by
  unfold markKeyAsFailed
  by_cases h : km.failedKeys.contains key = true
  · rw [if_pos h]
    simpa using h
  · rw [if_neg h]
    simp

/-- C3 amended: a failure with status 400 or 401 is terminal after exactly one
attempt — no second credential is drawn — but, contrary to the claim, the
credential used IS marked failed in the pool (the catch block marks the key
unconditionally before the no-retry break). -/
theorem terminal_status_marks_key {α : Type} (upstream : String → UpstreamResult α)
    (km km1 : KeyManager) (key : String) (R : Nat) (s : Option Nat) (m : String)
    (hpos : 0 < R) (hk : getNextKey km = (some key, km1))
    (hu : upstream key = .failure s m) (hterm : s = some 400 ∨ s = some 401) :
    (generateContent upstream km R).attempts = 1 ∧
    (generateContent upstream km R).outcome = .terminalError m ∧
    key ∈ (generateContent upstream km R).km.failedKeys := by
  obtain ⟨n, rfl⟩ : ∃ n, R = n + 1 := ⟨R - 1, by omega⟩
  unfold generateContent
  simp only [runAttempts, hk, hu]
  rw [if_pos hterm]
  exact ⟨rfl, rfl, mem_markKeyAsFailed km1 key⟩

theorem terminal_status_marks_key_witness :
    (generateContent alwaysBadRequest twoKeyKM 3).attempts = 1 ∧
    (generateContent alwaysBadRequest twoKeyKM 3).outcome =
      .terminalError "malformed" ∧
    "alpha-key" ∈ (generateContent alwaysBadRequest twoKeyKM 3).km.failedKeys :=
  terminal_status_marks_key alwaysBadRequest twoKeyKM
    ⟨["alpha-key", "beta-key"], 1, []⟩ "alpha-key" 3 (some 400) "malformed"
    (by decide) (by decide) rfl (Or.inl rfl)

/-- C3 counterexample: on a 401 rejection the used credential ends up in the
failed set (and the run is terminal after one attempt), contradicting the
claim that a bad-request/unauthorized failure leaves the credential unmarked. -/
theorem unauthorized_still_marks :
    (generateContent alwaysUnauthorized twoKeyKM 3).attempts = 1 ∧
    "alpha-key" ∈ (generateContent alwaysUnauthorized twoKeyKM 3).km.failedKeys := by
  refine ⟨by decide, by decide⟩

/-- C6: a 401-classified failure on the first attempt stops the loop after
exactly one attempt, surfacing that failure's message. -/
theorem unauthorized_first_attempt {α : Type} (upstream : String → UpstreamResult α)
    (km km1 : KeyManager) (key : String) (R : Nat) (m : String) (hpos : 0 < R)
    (hk : getNextKey km = (some key, km1))
    (hu : upstream key = .failure (some 401) m) :
    (generateContent upstream km R).attempts = 1 ∧
    (generateContent upstream km R).outcome = .terminalError m := by
  obtain ⟨n, rfl⟩ : ∃ n, R = n + 1 := ⟨R - 1, by omega⟩
  unfold generateContent
  simp only [runAttempts, hk, hu]
  simp

theorem unauthorized_first_attempt_witness :
    (generateContent alwaysUnauthorized threeKeyKM 5).attempts = 1 ∧
    (generateContent alwaysUnauthorized threeKeyKM 5).outcome =
      .terminalError "denied" :=
  unauthorized_first_attempt alwaysUnauthorized threeKeyKM
    ⟨["k-a", "k-b", "k-c"], 1, []⟩ "k-a" 5 "denied" (by decide) (by decide) rfl

/-- Helper: when every upstream call fails retryably, every loop iteration
appends one failure message and recurses to exhaustion. -/
theorem runAttempts_all_retryable {α : Type} (upstream : String → UpstreamResult α)
    (hfail : ∀ k, isRetryableFailure (upstream k) = true) :
    ∀ fuel km attempts msgs logs,
      ∃ more : List String, more.length = fuel ∧
        (runAttempts upstream fuel km attempts msgs logs).outcome =
          .terminalError (((msgs ++ more).getLast?).getD defaultFailMsg) ∧
        (runAttempts upstream fuel km attempts msgs logs).attempts =
          attempts + fuel ∧
        (runAttempts upstream fuel km attempts msgs logs).failMsgs = msgs ++ more := by
  intro fuel
  induction fuel with
  | zero =>
    intro km a msgs logs
    exact ⟨[], rfl, by simp [runAttempts], by simp [runAttempts], by simp [runAttempts]⟩
  | succ n ih =>
    intro km a msgs logs
    rcases hg : getNextKey km with ⟨keyOpt, km1⟩
    cases keyOpt with
    | none =>
      obtain ⟨more, hlen, ho, ha, hm⟩ := ih km1 (a + 1) (msgs ++ [noKeysMsg]) logs
      refine ⟨noKeysMsg :: more, by simp [hlen], ?_, ?_, ?_⟩
      · simp only [runAttempts, hg]
        rw [ho, List.append_assoc]
        rfl
      · simp only [runAttempts, hg]
        rw [ha]
        omega
      · simp only [runAttempts, hg]
        rw [hm, List.append_assoc]
        rfl
    | some key =>
      cases hu : upstream key with
      | success r =>
        exfalso
        have := hfail key
        rw [hu] at this
        simp [isRetryableFailure] at this
      | failure s m =>
        have hs : ¬ (s = some 400 ∨ s = some 401) := by
          have := hfail key
          rw [hu] at this
          simp only [isRetryableFailure, Bool.not_eq_true'] at this
          intro hcon
          rcases hcon with h4 | h4 <;> simp [h4] at this
        obtain ⟨more, hlen, ho, ha, hm⟩ :=
          ih (markKeyAsFailed km1 key) (a + 1) (msgs ++ [m])
            (logs ++ [⟨sanitizeKey key.data, statusType s, s.getD 0⟩])
        refine ⟨m :: more, by simp [hlen], ?_, ?_, ?_⟩
        · simp only [runAttempts, hg, hu, if_neg hs]
          rw [ho, List.append_assoc]
          rfl
        · simp only [runAttempts, hg, hu, if_neg hs]
          rw [ha]
          omega
        · simp only [runAttempts, hg, hu, if_neg hs]
          rw [hm, List.append_assoc]
          rfl

/-- C5: with MAX_RETRIES = R ≥ 1 and an upstream that always fails with a
retryable classification, the orchestrator performs exactly R attempts (one
caught failure message per attempt) and then reports a terminal failure whose
aggregated error carries the last failure's message. -/
theorem always_retryable_exhausts {α : Type} (upstream : String → UpstreamResult α)
    (km : KeyManager) (R : Nat) (hpos : 0 < R)
    (hfail : ∀ k, isRetryableFailure (upstream k) = true) :
    (generateContent upstream km R).attempts = R ∧
    (generateContent upstream km R).failMsgs.length = R ∧
    ∃ m, (generateContent upstream km R).outcome = .terminalError m ∧
      (generateContent upstream km R).failMsgs.getLast? = some m := by
  obtain ⟨more, hlen, ho, ha, hm⟩ :=
    runAttempts_all_retryable upstream hfail R km 0 [] []
  unfold generateContent at *
  have hne : more ≠ [] := by
    intro h
    rw [h] at hlen
    simp at hlen
    omega
  have hlast : more.getLast? = some (more.getLast hne) :=
    List.getLast?_eq_getLast more hne
  refine ⟨by rw [ha]; omega, by rw [hm]; simpa using hlen, more.getLast hne, ?_, ?_⟩
  · rw [ho]
    simp [hlast]
  · rw [hm]
    simpa using hlast

theorem always_retryable_exhausts_witness :
    (generateContent alwaysServerError threeKeyKM 2).attempts = 2 ∧
    (generateContent alwaysServerError threeKeyKM 2).failMsgs.length = 2 ∧
    ∃ m, (generateContent alwaysServerError threeKeyKM 2).outcome =
        .terminalError m ∧
      (generateContent alwaysServerError threeKeyKM 2).failMsgs.getLast? = some m :=
  always_retryable_exhausts alwaysServerError threeKeyKM 2 (by decide)
    (fun _ => rfl)

/-- Helper: `processLine` is payload extraction followed by the decoder. -/
theorem processLine_eq_bind {α : Type} (parse : List Char → Option α)
    (line : List Char) :
    processLine parse line = (extractData line).bind parse := by
  unfold processLine extractData
  split <;> simp

/-- Helper: `processChunk` is `chunkData` with the decoder mapped over the
extracted payloads. -/
theorem processChunk_eq {α : Type} (parse : List Char → Option α)
    (b c : List Char) :
    processChunk parse b c =
      ((chunkData b c).1, (chunkData b c).2.filterMap parse) := by
  unfold processChunk chunkData
  refine Prod.ext rfl ?_
  rw [List.filterMap_filterMap]
  have : processLine parse = fun line => (extractData line).bind parse :=
    funext (processLine_eq_bind parse)
  rw [this]

/-- Helper: the relay fold refines the payload fold. -/
theorem foldl_relayStep_eq {α : Type} (parse : List Char → Option α) :
    ∀ (chunks : List (List Char)) (b : List Char) (frames : List α)
      (ds : List (List Char)), frames = ds.filterMap parse →
      (chunks.foldl (relayStep parse) (b, frames)).1 =
        (chunks.foldl dataStep (b, ds)).1 ∧
      (chunks.foldl (relayStep parse) (b, frames)).2 =
        (chunks.foldl dataStep (b, ds)).2.filterMap parse := by
  intro chunks
  induction chunks with
  | nil =>
    intro b frames ds h
    exact ⟨rfl, h⟩
  | cons c cs ih =>
    intro b frames ds h
    simp only [List.foldl_cons]
    have hstep : relayStep parse (b, frames) c =
        ((dataStep (b, ds) c).1, (dataStep (b, ds) c).2.filterMap parse) := by
      unfold relayStep dataStep
      rw [processChunk_eq]
      refine Prod.ext rfl ?_
      simp only
      rw [h, List.filterMap_append]
    rw [hstep]
    exact ih (dataStep (b, ds) c).1 _ (dataStep (b, ds) c).2 rfl

/-- Helper: the buffer epilogue refines `remainderData`. -/
theorem processRemainder_eq {α : Type} (parse : List Char → Option α)
    (b : List Char) :
    processRemainder parse b = (remainderData b).toList.filterMap parse := by
  unfold processRemainder remainderData
  split
  · simp
  · rw [processLine_eq_bind]
    cases hx : extractData b with
    | none => simp
    | some d =>
      cases hp : parse d <;> simp [hp]

/-- Helper: the frames of a session are exactly the decoder applied to the
payload strings the session surfaces, in order. -/
theorem relayChunks_eq_filterMap {α : Type} (parse : List Char → Option α)
    (chunks : List (List Char)) :
    relayChunks parse chunks = (relayDataStrings chunks).filterMap parse := by
  unfold relayChunks relayDataStrings
  dsimp only
  obtain ⟨h1, h2⟩ := foldl_relayStep_eq parse chunks [] [] [] rfl
  rw [h1, h2, processRemainder_eq, List.filterMap_append]

/-- Helper: the payload fold's accumulator splits off. -/
theorem foldl_dataStep_acc :
    ∀ (chunks : List (List Char)) (b : List Char) (ds : List (List Char)),
      chunks.foldl dataStep (b, ds) =
        ((chunks.foldl dataStep (b, [])).1,
         ds ++ (chunks.foldl dataStep (b, [])).2) := by
  intro chunks
  induction chunks with
  | nil =>
    intro b ds
    simp
  | cons c cs ih =>
    intro b ds
    simp only [List.foldl_cons]
    have h1 : dataStep (b, ds) c =
        ((chunkData b c).1, ds ++ (chunkData b c).2) := rfl
    have h2 : dataStep (b, []) c =
        ((chunkData b c).1, [] ++ (chunkData b c).2) := rfl
    rw [h1, h2, ih (chunkData b c).1 (ds ++ (chunkData b c).2),
      ih (chunkData b c).1 ([] ++ (chunkData b c).2)]
    simp [List.append_assoc]

/-- Helper: a leading `data: [DONE]` chunk leaves the buffer empty and
contributes exactly the payload `[DONE]` before the rest of the session. -/
theorem relayDataStrings_done_cons (chunks : List (List Char)) :
    relayDataStrings ("data: [DONE]\n\n".data :: chunks) =
      "[DONE]".data :: relayDataStrings chunks := by
  unfold relayDataStrings
  simp only [List.foldl_cons]
  have h0 : dataStep ([], []) "data: [DONE]\n\n".data = ([], ["[DONE]".data]) := by
    decide
  rw [h0, foldl_dataStep_acc chunks [] ["[DONE]".data]]
  simp

/-- C1 amended: the relay has no sentinel handling — a line whose remainder
after the `data: ` marker is `[DONE]` simply fails to decode and is dropped
like any malformed line, and the session continues: prepending the sentinel
chunk leaves the surfaced frame sequence of the rest of the stream unchanged
(so frames decoded after the sentinel ARE surfaced; the sequence terminates
only when the upstream stream itself ends). -/
theorem relay_done_is_dropped {α : Type} (parse : List Char → Option α)
    (chunks : List (List Char)) (hdone : parse "[DONE]".data = none) :
    relayChunks parse ("data: [DONE]\n\n".data :: chunks) =
      relayChunks parse chunks := by
  rw [relayChunks_eq_filterMap, relayChunks_eq_filterMap,
    relayDataStrings_done_cons]
  simp [List.filterMap_cons, hdone]

theorem relay_done_is_dropped_witness :
    relayChunks demoParse
        ["data: [DONE]\n\n".data, "data: \x7b\"b\":2\x7d\n\n".data] =
      relayChunks demoParse ["data: \x7b\"b\":2\x7d\n\n".data] :=
  relay_done_is_dropped demoParse ["data: \x7b\"b\":2\x7d\n\n".data] (by decide)

/-- C1 counterexample: after a `data: [DONE]` line, a later decodable frame is
still surfaced to the consumer — the relay does not terminate at the
sentinel, contradicting the claim that bytes arriving after `[DONE]` are
never surfaced. -/
theorem relay_surfaces_after_done :
    relayChunks demoParse
        ["data: [DONE]\n\n".data, "data: \x7b\"a\":1\x7d\n\n".data] =
      ["\x7b\"a\":1\x7d".data] ∧
    relayChunks demoParse
        ["data: [DONE]\n\n".data, "data: \x7b\"a\":1\x7d\n\n".data] ≠ [] := by
  refine ⟨by decide, by decide⟩

/-- C8: a frame split across the chunk boundary is reassembled — feeding the
relay the two chunks yields exactly the two frames in arrival order. -/
theorem relay_split_frame {α : Type} (parse : List Char → Option α) (fa fb : α)
    (ha : parse "\x7b\"a\":1\x7d".data = some fa)
    (hb : parse "\x7b\"b\":2\x7d".data = some fb) :
    relayChunks parse
        ["data: \x7b\"a\":1\x7d\n\nda".data, "ta: \x7b\"b\":2\x7d\n\n".data] =
      [fa, fb] := by
  rw [relayChunks_eq_filterMap]
  have hd : relayDataStrings
      ["data: \x7b\"a\":1\x7d\n\nda".data, "ta: \x7b\"b\":2\x7d\n\n".data] =
      ["\x7b\"a\":1\x7d".data, "\x7b\"b\":2\x7d".data] := by decide
  rw [hd]
  simp [List.filterMap_cons, ha, hb]

theorem relay_split_frame_witness :
    relayChunks demoParse
        ["data: \x7b\"a\":1\x7d\n\nda".data, "ta: \x7b\"b\":2\x7d\n\n".data] =
      ["\x7b\"a\":1\x7d".data, "\x7b\"b\":2\x7d".data] :=
  relay_split_frame demoParse "\x7b\"a\":1\x7d".data "\x7b\"b\":2\x7d".data
    (by decide) (by decide)

/-- C9: a line whose payload fails to decode is dropped without terminating
the session — the decodable frames before and after it are both delivered, in
arrival order. -/
theorem relay_malformed_dropped {α : Type} (parse : List Char → Option α)
    (fa fb : α)
    (ha : parse "\x7b\"a\":1\x7d".data = some fa)
    (hmal : parse "not-json".data = none)
    (hb : parse "\x7b\"b\":2\x7d".data = some fb) :
    relayChunks parse
        ["data: \x7b\"a\":1\x7d\n\n".data, "data: not-json\n\n".data,
         "data: \x7b\"b\":2\x7d\n\n".data] = [fa, fb] := by
  rw [relayChunks_eq_filterMap]
  have hd : relayDataStrings
      ["data: \x7b\"a\":1\x7d\n\n".data, "data: not-json\n\n".data,
       "data: \x7b\"b\":2\x7d\n\n".data] =
      ["\x7b\"a\":1\x7d".data, "not-json".data, "\x7b\"b\":2\x7d".data] := by
    decide
  rw [hd]
  simp [List.filterMap_cons, ha, hmal, hb]

theorem relay_malformed_dropped_witness :
    relayChunks demoParse
        ["data: \x7b\"a\":1\x7d\n\n".data, "data: not-json\n\n".data,
         "data: \x7b\"b\":2\x7d\n\n".data] =
      ["\x7b\"a\":1\x7d".data, "\x7b\"b\":2\x7d".data] :=
  relay_malformed_dropped demoParse "\x7b\"a\":1\x7d".data "\x7b\"b\":2\x7d".data
    (by decide) (by decide) (by decide)

end GeminiProxy
